import Mathlib

/-!
Verification development for the cdk-deployer stack-lifecycle engine
(pkg/cdk/deployer.go, pkg/cdk/types.go).

The Go code polls a remote CloudFormation-style control plane.  We embed it
shallowly:

* Remote responses are explicit values (`Except String _` models a Go
  `(value, error)` pair whose error is a message).
* The polling loops (`waitForStack`, `waitForDriftDetection`) are a single
  parametric loop `pollLoop` over discrete time.  The Go `select` over the
  cancellation channel, the `time.After` deadline and the `time.Ticker` is
  modelled by `nextEvent`, which fires the event with the smallest time
  stamp; on exact ties (which Go resolves randomly) the model gives
  cancellation priority over timeout and both priority over a tick, and the
  temporal theorems below only use strict orderings so that the tie-break is
  never load-bearing.
* Go slices built with `append` starting from a `nil` slice are modelled by
  `GoSlice α := Option (List α)` so that the observable difference between a
  nil slice and a non-nil empty slice is preserved.
-/

namespace CdkDeployer

/-! ## Time constants (from the Go `time` package and deployer.go) -/

/-- One second, in nanoseconds, as Go's `time.Second`. -/
def second : Nat := 1000000000

/-- One minute, in nanoseconds, as Go's `time.Minute`. -/
def minute : Nat := 60 * second

/-- `waitForStack`: `time.NewTicker(10 * time.Second)`. -/
def stackPollInterval : Nat := 10 * second

/-- `waitForStack`: `time.After(30 * time.Minute)`. -/
def stackTimeout : Nat := 30 * minute

/-- `waitForDriftDetection`: `time.NewTicker(5 * time.Second)`. -/
def driftPollInterval : Nat := 5 * second

/-- `waitForDriftDetection`: `time.After(10 * time.Minute)`. -/
def driftTimeout : Nat := 10 * minute

/-! ## Remote data (AWS SDK types observed by the deployer) -/

/-- A stack output as surfaced by the deployer (types.go `StackOutput`). -/
structure StackOutput where
  Key : String
  Value : String
deriving DecidableEq, Repr

/-- An output entry as reported by the remote `DescribeStacks` call. -/
structure RemoteOutput where
  outputKey : String
  outputValue : String
deriving DecidableEq, Repr

/-- The slice of a remote stack description that deployer.go reads:
`StackStatus`, `Outputs`, and `DriftInformation.StackDriftStatus`. -/
structure RemoteStack where
  stackStatus : String
  outputs : List RemoteOutput
  driftStatus : String
deriving DecidableEq, Repr

/-! ## Go slices: `nil` versus empty -/

/-- A Go slice: `none` is the `nil` slice (the zero value of a slice
variable), `some xs` a non-nil slice holding `xs`.  Distinguishing the two
matters because Go code and encoders observe it (`s == nil`, JSON `null`). -/
def GoSlice (α : Type) := Option (List α)

instance (α : Type) [DecidableEq α] : DecidableEq (GoSlice α) := by
  unfold GoSlice
  exact inferInstance

instance (α : Type) [Repr α] : Repr (GoSlice α) :=
  inferInstanceAs (Repr (Option (List α)))

/-- The nil slice: `var xs []T` in Go. -/
def GoSlice.nil {α : Type} : GoSlice α := none

/-- Go's `append(s, x)`: the result is always non-nil. -/
def GoSlice.append1 {α : Type} (s : GoSlice α) (x : α) : GoSlice α :=
  some ((s.getD []) ++ [x])

/-- The elements of a Go slice (a nil slice has none). -/
def GoSlice.toList {α : Type} (s : GoSlice α) : List α := s.getD []

/-! ## Status classification (the `switch` bodies of the two pollers) -/

/-- What one poll observation makes the loop do next. -/
inductive StepDecision where
  | succeedWith (status : String)
  | failWith (status : String) (msg : String)
  | keepPolling
deriving DecidableEq, Repr

/-- The success statuses of `waitForStack`'s `switch` (first case). -/
def stackSuccessStatuses : List String :=
  ["CREATE_COMPLETE", "UPDATE_COMPLETE"]

/-- The failure statuses of `waitForStack`'s `switch` (second case). -/
def stackFailureStatuses : List String :=
  ["CREATE_FAILED", "ROLLBACK_COMPLETE", "ROLLBACK_FAILED",
   "UPDATE_ROLLBACK_COMPLETE", "UPDATE_ROLLBACK_FAILED",
   "DELETE_COMPLETE", "DELETE_FAILED"]

/-- The `switch status` in `waitForStack` (deployer.go lines 160-172):
two success statuses return `(status, nil)`, seven failure statuses return
`(status, error)`, everything else falls through and keeps polling. -/
def classifyStackStatus (status : String) : StepDecision :=
  if status = "CREATE_COMPLETE" ∨ status = "UPDATE_COMPLETE" then
    .succeedWith status
  else if status = "CREATE_FAILED" ∨ status = "ROLLBACK_COMPLETE" ∨
      status = "ROLLBACK_FAILED" ∨ status = "UPDATE_ROLLBACK_COMPLETE" ∨
      status = "UPDATE_ROLLBACK_FAILED" ∨ status = "DELETE_COMPLETE" ∨
      status = "DELETE_FAILED" then
    .failWith status ("stack operation failed with status: " ++ status)
  else
    .keepPolling

/-- What `DescribeStackDriftDetectionStatus` reports: the detection status
and (used only on failure) its reason. -/
structure DriftDetectionObs where
  detectionStatus : String
  detectionStatusReason : String
deriving DecidableEq, Repr

/-- The `switch output.DetectionStatus` in `waitForDriftDetection`
(deployer.go lines 304-310): `DETECTION_COMPLETE` succeeds,
`DETECTION_FAILED` fails carrying the remote reason, anything else keeps
polling. -/
def classifyDriftDetection (o : DriftDetectionObs) : StepDecision :=
  if o.detectionStatus = "DETECTION_COMPLETE" then
    .succeedWith o.detectionStatus
  else if o.detectionStatus = "DETECTION_FAILED" then
    .failWith o.detectionStatus
      ("drift detection failed: " ++ o.detectionStatusReason)
  else
    .keepPolling

/-! ## The polling loop -/

/-- The result a poller can return. `succeeded`/`failed` carry the observed
terminal status (and for `failed` the error message built from it);
`pollError` is a failing status query surfaced immediately; `timedOut` is
the `time.After` branch; `cancelled` carries the context's error. -/
inductive WaitOutcome where
  | succeeded (status : String)
  | failed (status : String) (msg : String)
  | pollError (msg : String)
  | timedOut
  | cancelled (cause : String)
deriving DecidableEq, Repr

/-- `true` exactly for the outcomes produced by a status query (as opposed
to the timeout or cancellation branches of the `select`). -/
def WaitOutcome.viaQuery : WaitOutcome → Bool
  | .succeeded _ => true
  | .failed _ _ => true
  | .pollError _ => true
  | .timedOut => false
  | .cancelled _ => false

/-- A finished run of a poller: its outcome and how many status queries it
issued. -/
structure PollRun where
  outcome : WaitOutcome
  polls : Nat
deriving DecidableEq, Repr

/-- Which `select` arm fires. -/
inductive Fired where
  | cancel
  | timeout
  | tick
deriving DecidableEq, Repr

/-- The arm of the `select` that fires next, given the cancellation time
`c` (if any), the deadline `d` and the next tick time `t`: the earliest of
the three wins; exact ties (randomised by Go) are resolved cancel-first,
then timeout, then tick. -/
def nextEvent (c : Option Nat) (d t : Nat) : Fired :=
  match c with
  | some cv =>
      if cv ≤ d then (if cv ≤ t then .cancel else .tick)
      else (if d ≤ t then .timeout else .tick)
  | none => if d ≤ t then .timeout else .tick

/-- The shared shape of `waitForStack` and `waitForDriftDetection`
(deployer.go lines 146-174 and 285-312): a `for { select { ... } }` loop.
`q k` is the remote response to the `k`-th status query (the ticker's
`k`-th tick, fired at time `(k+1) * i`), `classify` the `switch` body, `i`
the ticker interval, `d` the `time.After` deadline, `c` the time at which
the caller's context is cancelled (if ever) and `cause` the context's
error.  The first argument of the recursion is fuel bounding the number of
iterations (the loop always stops once the deadline passes, so
`fuel = d` suffices whenever `0 < i`, see `pollLoop_isSome`); the second is
the number of ticks that have already fired. -/
def pollLoop {α : Type} (q : Nat → Except String α) (classify : α → StepDecision)
    (i d : Nat) (c : Option Nat) (cause : String) :
    Nat → Nat → Option PollRun
  | 0, _ => none
  | fuel + 1, k =>
    match nextEvent c d ((k + 1) * i) with
    | .cancel => some ⟨.cancelled cause, k⟩
    | .timeout => some ⟨.timedOut, k⟩
    | .tick =>
      match q k with
      | .error e => some ⟨.pollError e, k + 1⟩
      | .ok a =>
        match classify a with
        | .succeedWith s => some ⟨.succeeded s, k + 1⟩
        | .failWith s m => some ⟨.failed s m, k + 1⟩
        | .keepPolling => pollLoop q classify i d c cause fuel (k + 1)

/-- `getStackStatus` (deployer.go lines 178-193): describe the stack, fail
on a query error or an empty stack list, otherwise report the status. -/
def getStackStatus (stackName : String) (res : Except String (List RemoteStack)) :
    Except String String :=
  match res with
  | .error e => .error ("failed to describe stack: " ++ e)
  | .ok [] => .error ("stack " ++ stackName ++ " not found")
  | .ok (st :: _) => .ok st.stackStatus

/-- `waitForStack` (deployer.go lines 138-175): the polling loop with a
10-second ticker and a 30-minute deadline, querying `getStackStatus` on
each tick.  `describeAt k` is the remote `DescribeStacks` response to the
`k`-th query. -/
def waitForStackRun (stackName : String) (c : Option Nat) (cause : String)
    (describeAt : Nat → Except String (List RemoteStack)) : Option PollRun :=
  pollLoop (fun k => getStackStatus stackName (describeAt k)) classifyStackStatus
    stackPollInterval stackTimeout c cause stackTimeout 0

/-- The error wrapping of a failing `DescribeStackDriftDetectionStatus`
call (deployer.go lines 296-299). -/
def describeDriftDetectionStatus (res : Except String DriftDetectionObs) :
    Except String DriftDetectionObs :=
  match res with
  | .error e => .error ("failed to get drift detection status: " ++ e)
  | .ok o => .ok o

/-- `waitForDriftDetection` (deployer.go lines 277-313): the polling loop
with a 5-second ticker and a 10-minute deadline against the detection job. -/
def waitForDriftDetectionRun (c : Option Nat) (cause : String)
    (describeAt : Nat → Except String DriftDetectionObs) : Option PollRun :=
  pollLoop (fun k => describeDriftDetectionStatus (describeAt k)) classifyDriftDetection
    driftPollInterval driftTimeout c cause driftTimeout 0

/-! ## Submitter and outcome collector (`Deploy` and its helpers) -/

/-- `stackExists` (deployer.go lines 78-90): the result pair
`(bool, error)`.  Any error from `DescribeStacks` is swallowed and reported
as `(false, nil)`; success is `(true, nil)`.  The error component is never
non-nil. -/
def stackExists (res : Except String (List RemoteStack)) : Bool × Option String :=
  match res with
  | .error _ => (false, none)
  | .ok _ => (true, none)

/-- `createStack` (deployer.go lines 93-113): wraps a remote failure as
`failed to create stack: ...`, otherwise returns the stack id. -/
def createStack (remote : Except String String) : Except String String :=
  match remote with
  | .error e => .error ("failed to create stack: " ++ e)
  | .ok stackId => .ok stackId

/-- `updateStack` (deployer.go lines 116-135): wraps a remote failure as
`failed to update stack: ...`, otherwise returns the stack id. -/
def updateStack (remote : Except String String) : Except String String :=
  match remote with
  | .error e => .error ("failed to update stack: " ++ e)
  | .ok stackId => .ok stackId

/-- `getStackOutputs` (deployer.go lines 196-219): a failing describe call
is an error; an empty stack list returns `(nil, nil)` — the nil slice and
no error; otherwise the outputs of the first stack are appended one by one
(in remote order) to a slice that starts nil. -/
def getStackOutputs (res : Except String (List RemoteStack)) :
    Except String (GoSlice StackOutput) :=
  match res with
  | .error e => .error ("failed to describe stack: " ++ e)
  | .ok [] => .ok GoSlice.nil
  | .ok (st :: _) =>
      .ok (st.outputs.foldl
        (fun acc o => acc.append1 ⟨o.outputKey, o.outputValue⟩) GoSlice.nil)

/-- `DeployResult` (types.go lines 16-21). -/
structure DeployResult where
  StackName : String
  StackID : String
  Status : String
  Outputs : GoSlice StackOutput
deriving DecidableEq, Repr

/-- Which mutating request `Deploy` submitted. -/
inductive DeployAction where
  | created
  | updated
deriving DecidableEq, Repr

/-- The remote responses one `Deploy` invocation observes, phase by phase:
the template lookup, the existence-check describe call, the create or
update call (whichever is made), the result of the completion wait
(`waitForStack`, abstracted by its returned status or error and studied
separately through `waitForStackRun`), and the describe call used for
output collection. -/
structure DeployEnv where
  templateRes : Except String String
  existsQuery : Except String (List RemoteStack)
  createRemote : Except String String
  updateRemote : Except String String
  waitRes : Except String String
  outputsQuery : Except String (List RemoteStack)

/-- `Deploy` (deployer.go lines 34-75): get the template, check existence
(whose error component is always nil, so the `if err != nil` guard after it
never fires), update if the stack exists and create otherwise, wait, then
collect outputs.  Returns the submitted action alongside the Go result. -/
def deploy (stackName : String) (env : DeployEnv) :
    Option DeployAction × Except String DeployResult :=
  match env.templateRes with
  | .error e => (none, .error e)
  | .ok _ =>
    let ex := stackExists env.existsQuery
    let act := if ex.1 then DeployAction.updated else DeployAction.created
    let idRes := if ex.1 then updateStack env.updateRemote else createStack env.createRemote
    match idRes with
    | .error e => (some act, .error e)
    | .ok stackId =>
      match env.waitRes with
      | .error e => (some act, .error e)
      | .ok status =>
        match getStackOutputs env.outputsQuery with
        | .error e => (some act, .error e)
        | .ok outs => (some act, .ok ⟨stackName, stackId, status, outs⟩)

/-! ## Drift result aggregation -/

/-- A property difference as reported by the remote system. -/
structure RemotePropertyDifference where
  propertyPath : String
  expectedValue : String
  actualValue : String
  differenceType : String
deriving DecidableEq, Repr

/-- A per-resource drift record as reported by
`DescribeStackResourceDrifts`. -/
structure RemoteResourceDrift where
  logicalResourceId : String
  physicalResourceId : String
  resourceType : String
  stackResourceDriftStatus : String
  propertyDifferences : List RemotePropertyDifference
deriving DecidableEq, Repr

/-- `PropertyDiff` (types.go lines 46-51). -/
structure PropertyDiff where
  PropertyPath : String
  ExpectedValue : String
  ActualValue : String
  DifferenceType : String
deriving DecidableEq, Repr

/-- `DriftedResource` (types.go lines 37-43). -/
structure DriftedResource where
  LogicalID : String
  PhysicalID : String
  ResourceType : String
  DriftStatus : String
  PropertyDiffs : GoSlice PropertyDiff
deriving DecidableEq, Repr

/-- `DriftResult` (types.go lines 30-34). -/
structure DriftResult where
  StackName : String
  DriftStatus : String
  DriftedResources : GoSlice DriftedResource
deriving DecidableEq, Repr

/-- The `StackResourceDriftStatusFilters` that `getDriftResults` passes to
`DescribeStackResourceDrifts` (deployer.go lines 340-344). -/
def driftStatusFilters : List String :=
  ["MODIFIED", "DELETED", "NOT_CHECKED"]

/-- Model of the remote `DescribeStackResourceDrifts` call contract: given
the remote system's full per-resource drift records and the requested
status filters, the call fails when the transport fails and otherwise
returns exactly the records whose status is in the filter list, in the
remote system's reported order. -/
def describeStackResourceDrifts (remote : List RemoteResourceDrift)
    (failure : Option String) (filters : List String) :
    Except String (List RemoteResourceDrift) :=
  match failure with
  | some e => .error e
  | none => .ok (remote.filter (fun r => decide (r.stackResourceDriftStatus ∈ filters)))

/-- The conversion of one remote property difference inside the inner loop
of `getDriftResults` (deployer.go lines 361-368). -/
def toPropertyDiff (pd : RemotePropertyDifference) : PropertyDiff :=
  ⟨pd.propertyPath, pd.expectedValue, pd.actualValue, pd.differenceType⟩

/-- The conversion of one remote drift record in the loop of
`getDriftResults` (deployer.go lines 352-370): field copies, with the
property differences appended in remote order to a slice that starts nil. -/
def toDriftedResource (rd : RemoteResourceDrift) : DriftedResource :=
  ⟨rd.logicalResourceId, rd.physicalResourceId, rd.resourceType,
    rd.stackResourceDriftStatus,
    rd.propertyDifferences.foldl (fun acc pd => acc.append1 (toPropertyDiff pd)) GoSlice.nil⟩

/-- `getDriftResults` (deployer.go lines 316-374): describe the stack (an
error or an empty stack list fails), take the rolled-up drift status from
the first stack, ask the remote system for the drift records restricted to
`driftStatusFilters`, and append each converted record to a result slice
that starts nil. -/
def getDriftResults (stackName : String)
    (describeRes : Except String (List RemoteStack))
    (remoteDrifts : List RemoteResourceDrift) (driftsFailure : Option String) :
    Except String DriftResult :=
  match describeRes with
  | .error e => .error ("failed to describe stack: " ++ e)
  | .ok [] => .error ("stack " ++ stackName ++ " not found")
  | .ok (st :: _) =>
    match describeStackResourceDrifts remoteDrifts driftsFailure driftStatusFilters with
    | .error e => .error ("failed to get resource drifts: " ++ e)
    | .ok rds =>
        .ok ⟨stackName, st.driftStatus,
          rds.foldl (fun acc rd => acc.append1 (toDriftedResource rd)) GoSlice.nil⟩

/-! ## Batch coordination (`DeployAll` / `DetectDriftAll`) -/

/-- The loop body shared by `DeployAll` (deployer.go lines 222-234) and
`DetectDriftAll` (lines 377-389): run the per-stack workflow `f` on each
identifier in order, appending each success to `acc` (a slice that starts
nil); on the first failure stop and return the results accumulated so far
together with the wrapped error.  The first component of the result records
the identifiers on which `f` was actually invoked, in order. -/
def batchRunAux {α : Type} (f : String → Except String α)
    (wrap : String → String → String) (called : List String) (acc : GoSlice α) :
    List String → List String × GoSlice α × Option String
  | [] => (called, acc, none)
  | s :: rest =>
    match f s with
    | .error e => (called ++ [s], acc, some (wrap s e))
    | .ok r => batchRunAux f wrap (called ++ [s]) (acc.append1 r) rest

/-- A batch run starting from the zero values `var results []T` and no
calls made yet. -/
def batchRun {α : Type} (f : String → Except String α)
    (wrap : String → String → String) (stackNames : List String) :
    List String × GoSlice α × Option String :=
  batchRunAux f wrap [] GoSlice.nil stackNames

/-- The error wrapping of `DeployAll` (deployer.go line 228). -/
def deployAllWrap (stackName e : String) : String :=
  "failed to deploy stack " ++ stackName ++ ": " ++ e

/-- `DeployAll` (deployer.go lines 222-234), with the per-stack `Deploy`
workflow abstracted as `f`. -/
def deployAll (f : String → Except String DeployResult) (stackNames : List String) :
    List String × GoSlice DeployResult × Option String :=
  batchRun f deployAllWrap stackNames

/-- The error wrapping of `DetectDriftAll` (deployer.go line 383). -/
def detectDriftAllWrap (stackName e : String) : String :=
  "failed to detect drift for stack " ++ stackName ++ ": " ++ e

/-- `DetectDriftAll` (deployer.go lines 377-389), with the per-stack
`DetectDrift` workflow abstracted as `f`. -/
def detectDriftAll (f : String → Except String DriftResult) (stackNames : List String) :
    List String × GoSlice DriftResult × Option String :=
  batchRun f detectDriftAllWrap stackNames

/-- `true` exactly when a Go `(value, error)` pair modelled by `Except` has
a nil error. -/
def exceptIsOk {ε α : Type} : Except ε α → Bool
  | .ok _ => true
  | .error _ => false

/-- Whether one poll observation stops the loop: a failing status query or
a terminal classification, as opposed to an observation that keeps the loop
polling. -/
def stopsPoll {α : Type} (classify : α → StepDecision) (q : Except String α) : Bool :=
  match q with
  | .error _ => true
  | .ok a =>
    match classify a with
    | .keepPolling => false
    | _ => true

/-- A sample per-stack workflow used by concrete instances below: fails on
stack B, succeeds with the name's length elsewhere. -/
def sampleWorkflow (s : String) : Except String Nat :=
  if s = "B" then .error "boom" else .ok s.length

/-- A sample remote drift record with status MODIFIED and one property
difference. -/
def sampleModifiedDrift : RemoteResourceDrift :=
  ⟨"L1", "P1", "T1", "MODIFIED", [⟨"Properties.Timeout", "30", "60", "NOT_EQUAL"⟩]⟩

/-- A sample remote drift record with status IN_SYNC. -/
def sampleInSyncDrift : RemoteResourceDrift :=
  ⟨"L2", "P2", "T2", "IN_SYNC", []⟩

/-- A sample remote stack description whose rolled-up drift status is
DRIFTED. -/
def sampleDriftedStack : RemoteStack :=
  ⟨"CREATE_COMPLETE", [], "DRIFTED"⟩

/-! ## Helper lemmas -/

lemma goSliceFoldl_some {α β : Type} (f : β → α) :
    ∀ (xs : List β) (s : List α),
      xs.foldl (fun acc x => GoSlice.append1 acc (f x)) (some s) = some (s ++ xs.map f)
  | [], s => by simp
  | x :: xs, s => by
      have h := goSliceFoldl_some f xs (s ++ [f x])
      simp only [List.foldl_cons, List.map_cons]
      simpa [GoSlice.append1] using h

lemma goSliceFoldl_nil_cons {α β : Type} (f : β → α) (x : β) (xs : List β) :
    (x :: xs).foldl (fun acc x => GoSlice.append1 acc (f x)) GoSlice.nil =
      some (f x :: xs.map f) := by
  have h := goSliceFoldl_some f xs [f x]
  simpa [GoSlice.nil, GoSlice.append1] using h

lemma goSliceFoldl_nil_toList {α β : Type} (f : β → α) (xs : List β) :
    (xs.foldl (fun acc x => GoSlice.append1 acc (f x)) GoSlice.nil).toList = xs.map f := by
  cases xs with
  | nil => rfl
  | cons x xs => rw [goSliceFoldl_nil_cons]; rfl

lemma stopsPoll_false_iff {α : Type} (classify : α → StepDecision) (x : Except String α) :
    stopsPoll classify x = false ↔ ∃ a, x = .ok a ∧ classify a = .keepPolling := by
  cases x with
  | error e => simp [stopsPoll]
  | ok a => cases h : classify a <;> simp [stopsPoll, h]

lemma nextEvent_timeout_iff (c : Option Nat) (d t : Nat) :
    nextEvent c d t = .timeout ↔ d ≤ t ∧ ∀ cv, c = some cv → d < cv := by
  cases c with
  | none => simp [nextEvent]
  | some cv =>
      simp only [nextEvent]
      split_ifs with h1 h2 <;> simp_all

lemma nextEvent_cancel_iff (c : Option Nat) (d t : Nat) :
    nextEvent c d t = .cancel ↔ ∃ cv, c = some cv ∧ cv ≤ d ∧ cv ≤ t := by
  cases c with
  | none => simp [nextEvent]; split_ifs <;> simp
  | some cv =>
      simp only [nextEvent]
      split_ifs with h1 h2 <;> simp_all

lemma nextEvent_tick_of_lt {c : Option Nat} {d t : Nat}
    (h1 : t < d) (h2 : ∀ cv, c = some cv → t < cv) : nextEvent c d t = .tick := by
  cases c with
  | none => simp [nextEvent]; omega
  | some cv =>
      have := h2 cv rfl
      simp only [nextEvent]
      split_ifs with ha hb <;> first | rfl | omega

lemma nextEvent_cancel_of {c : Option Nat} {d t cv : Nat}
    (hc : c = some cv) (h1 : cv ≤ d) (h2 : cv ≤ t) : nextEvent c d t = .cancel := by
  subst hc
  simp [nextEvent, h1, h2]

lemma nextEvent_timeout_of {c : Option Nat} {d t : Nat}
    (h1 : d ≤ t) (h2 : ∀ cv, c = some cv → d < cv) : nextEvent c d t = .timeout := by
  cases c with
  | none => simp [nextEvent, h1]
  | some cv =>
      have := h2 cv rfl
      simp only [nextEvent]
      split_ifs with ha hb <;> first | rfl | omega

lemma pollLoop_succ {α : Type} (q : Nat → Except String α) (classify : α → StepDecision)
    (i d : Nat) (c : Option Nat) (cause : String) (fuel k : Nat) :
    pollLoop q classify i d c cause (fuel + 1) k =
      match nextEvent c d ((k + 1) * i) with
      | .cancel => some ⟨.cancelled cause, k⟩
      | .timeout => some ⟨.timedOut, k⟩
      | .tick =>
        match q k with
        | .error e => some ⟨.pollError e, k + 1⟩
        | .ok a =>
          match classify a with
          | .succeedWith s => some ⟨.succeeded s, k + 1⟩
          | .failWith s m => some ⟨.failed s m, k + 1⟩
          | .keepPolling => pollLoop q classify i d c cause fuel (k + 1) := rfl

lemma pollLoop_timeout_of {α : Type} {q : Nat → Except String α} {classify : α → StepDecision}
    {i d : Nat} {c : Option Nat} {cause : String}
    (hc : ∀ cv, c = some cv → d < cv) :
    ∀ fuel k, (∀ j, k ≤ j → (j + 1) * i < d → stopsPoll classify (q j) = false) →
      k * i < d → d ≤ (k + fuel) * i →
      ∃ n, pollLoop q classify i d c cause fuel k = some ⟨.timedOut, n⟩ := by
  intro fuel
  induction fuel with
  | zero =>
      intro k _ hside hfuel
      exact absurd hside (not_lt.mpr (by simpa using hfuel))
  | succ fuel ih =>
      intro k hq hside hfuel
      by_cases hdt : d ≤ (k + 1) * i
      · have hne : nextEvent c d ((k + 1) * i) = .timeout := nextEvent_timeout_of hdt hc
        rw [pollLoop_succ]
        simp only [hne]
        exact ⟨k, rfl⟩
      · have htd : (k + 1) * i < d := lt_of_not_le hdt
        have hst : stopsPoll classify (q k) = false := hq k le_rfl htd
        obtain ⟨a, hqa, hcl⟩ := (stopsPoll_false_iff classify (q k)).mp hst
        have hne : nextEvent c d ((k + 1) * i) = .tick :=
          nextEvent_tick_of_lt htd (fun cv hcv => lt_trans htd (hc cv hcv))
        rw [pollLoop_succ]
        simp only [hne, hqa, hcl]
        refine ih (k + 1) (fun j hj => hq j (le_trans (Nat.le_succ k) hj)) htd ?_
        have harith : (k + 1) + fuel = k + (fuel + 1) := by omega
        rw [harith]
        exact hfuel

lemma pollLoop_timedOut_inv {α : Type} {q : Nat → Except String α} {classify : α → StepDecision}
    {i d : Nat} {c : Option Nat} {cause : String} :
    ∀ fuel k r, pollLoop q classify i d c cause fuel k = some r → r.outcome = .timedOut →
      (∀ j, k ≤ j → (j + 1) * i < d → stopsPoll classify (q j) = false) ∧
      (∀ cv, c = some cv → d < cv) := by
  intro fuel
  induction fuel with
  | zero => intro k r h; exact absurd h (by simp [pollLoop])
  | succ fuel ih =>
      intro k r h hout
      rw [pollLoop_succ] at h
      cases hne : nextEvent c d ((k + 1) * i) with
      | cancel =>
          simp only [hne, Option.some.injEq] at h
          rw [← h] at hout
          simp at hout
      | timeout =>
          obtain ⟨hdle, hcv⟩ := (nextEvent_timeout_iff c d ((k + 1) * i)).mp hne
          refine ⟨fun j hj hlt => ?_, hcv⟩
          have hmono : (k + 1) * i ≤ (j + 1) * i := Nat.mul_le_mul_right i (by omega)
          exact absurd (lt_of_le_of_lt (hdle.trans hmono) hlt) (lt_irrefl d)
      | tick =>
          simp only [hne] at h
          cases hqa : q k with
          | error e =>
              simp only [hqa, Option.some.injEq] at h
              rw [← h] at hout
              simp at hout
          | ok a =>
              simp only [hqa] at h
              cases hcl : classify a with
              | succeedWith s =>
                  simp only [hcl, Option.some.injEq] at h
                  rw [← h] at hout
                  simp at hout
              | failWith s m =>
                  simp only [hcl, Option.some.injEq] at h
                  rw [← h] at hout
                  simp at hout
              | keepPolling =>
                  simp only [hcl] at h
                  obtain ⟨hrest, hcv⟩ := ih (k + 1) r h hout
                  refine ⟨fun j hj hlt => ?_, hcv⟩
                  rcases Nat.eq_or_lt_of_le hj with heq | hlt2
                  · subst heq
                    simp [stopsPoll, hqa, hcl]
                  · exact hrest j hlt2 hlt

lemma pollLoop_cancel_of {α : Type} {q : Nat → Except String α} {classify : α → StepDecision}
    {i d cv : Nat} {c : Option Nat} {cause : String}
    (hc : c = some cv) (hcd : cv ≤ d) :
    ∀ fuel k, (∀ j, k ≤ j → (j + 1) * i < cv → stopsPoll classify (q j) = false) →
      k * i < cv → cv ≤ (k + fuel) * i →
      ∃ n, pollLoop q classify i d c cause fuel k = some ⟨.cancelled cause, n⟩ := by
  intro fuel
  induction fuel with
  | zero =>
      intro k _ hside hfuel
      exact absurd hside (not_lt.mpr (by simpa using hfuel))
  | succ fuel ih =>
      intro k hq hside hfuel
      by_cases hct : cv ≤ (k + 1) * i
      · have hne : nextEvent c d ((k + 1) * i) = .cancel := nextEvent_cancel_of hc hcd hct
        rw [pollLoop_succ]
        simp only [hne]
        exact ⟨k, rfl⟩
      · have htc : (k + 1) * i < cv := lt_of_not_le hct
        have hst : stopsPoll classify (q k) = false := hq k le_rfl htc
        obtain ⟨a, hqa, hcl⟩ := (stopsPoll_false_iff classify (q k)).mp hst
        have hne : nextEvent c d ((k + 1) * i) = .tick := by
          refine nextEvent_tick_of_lt (lt_of_lt_of_le htc hcd) (fun cv2 hcv2 => ?_)
          rw [hc] at hcv2
          injection hcv2 with hcv2
          omega
        rw [pollLoop_succ]
        simp only [hne, hqa, hcl]
        refine ih (k + 1) (fun j hj => hq j (le_trans (Nat.le_succ k) hj)) htc ?_
        have harith : (k + 1) + fuel = k + (fuel + 1) := by omega
        rw [harith]
        exact hfuel

lemma pollLoop_cancelled_inv {α : Type} {q : Nat → Except String α} {classify : α → StepDecision}
    {i d : Nat} {c : Option Nat} {cause cause2 : String} :
    ∀ fuel k r, pollLoop q classify i d c cause fuel k = some r →
      r.outcome = .cancelled cause2 →
      cause2 = cause ∧ ∃ cv, c = some cv ∧ cv ≤ d ∧
        (∀ j, k ≤ j → (j + 1) * i < cv → stopsPoll classify (q j) = false) := by
  intro fuel
  induction fuel with
  | zero => intro k r h; exact absurd h (by simp [pollLoop])
  | succ fuel ih =>
      intro k r h hout
      rw [pollLoop_succ] at h
      cases hne : nextEvent c d ((k + 1) * i) with
      | cancel =>
          simp only [hne, Option.some.injEq] at h
          rw [← h] at hout
          simp only [WaitOutcome.cancelled.injEq] at hout
          obtain ⟨cv, hcv, hcd, hct⟩ := (nextEvent_cancel_iff c d ((k + 1) * i)).mp hne
          refine ⟨hout.symm, cv, hcv, hcd, fun j hj hlt => ?_⟩
          have hmono : (k + 1) * i ≤ (j + 1) * i := Nat.mul_le_mul_right i (by omega)
          exact absurd (lt_of_le_of_lt (hct.trans hmono) hlt) (lt_irrefl cv)
      | timeout =>
          simp only [hne, Option.some.injEq] at h
          rw [← h] at hout
          simp at hout
      | tick =>
          simp only [hne] at h
          cases hqa : q k with
          | error e =>
              simp only [hqa, Option.some.injEq] at h
              rw [← h] at hout
              simp at hout
          | ok a =>
              simp only [hqa] at h
              cases hcl : classify a with
              | succeedWith s =>
                  simp only [hcl, Option.some.injEq] at h
                  rw [← h] at hout
                  simp at hout
              | failWith s m =>
                  simp only [hcl, Option.some.injEq] at h
                  rw [← h] at hout
                  simp at hout
              | keepPolling =>
                  simp only [hcl] at h
                  obtain ⟨hca, cv, hcv, hcd, hrest⟩ := ih (k + 1) r h hout
                  refine ⟨hca, cv, hcv, hcd, fun j hj hlt => ?_⟩
                  rcases Nat.eq_or_lt_of_le hj with heq | hlt2
                  · subst heq
                    simp [stopsPoll, hqa, hcl]
                  · exact hrest j hlt2 hlt

lemma pollLoop_viaQuery_polls {α : Type} {q : Nat → Except String α}
    {classify : α → StepDecision} {i d : Nat} {c : Option Nat} {cause : String} :
    ∀ fuel k r, pollLoop q classify i d c cause fuel k = some r →
      r.outcome.viaQuery = true → k + 1 ≤ r.polls := by
  intro fuel
  induction fuel with
  | zero => intro k r h; exact absurd h (by simp [pollLoop])
  | succ fuel ih =>
      intro k r h hvia
      rw [pollLoop_succ] at h
      cases hne : nextEvent c d ((k + 1) * i) with
      | cancel =>
          simp only [hne, Option.some.injEq] at h
          rw [← h] at hvia
          simp [WaitOutcome.viaQuery] at hvia
      | timeout =>
          simp only [hne, Option.some.injEq] at h
          rw [← h] at hvia
          simp [WaitOutcome.viaQuery] at hvia
      | tick =>
          simp only [hne] at h
          cases hqa : q k with
          | error e =>
              simp only [hqa, Option.some.injEq] at h
              rw [← h]
          | ok a =>
              simp only [hqa] at h
              cases hcl : classify a with
              | succeedWith s =>
                  simp only [hcl, Option.some.injEq] at h
                  rw [← h]
              | failWith s m =>
                  simp only [hcl, Option.some.injEq] at h
                  rw [← h]
              | keepPolling =>
                  simp only [hcl] at h
                  exact le_trans (Nat.le_succ (k + 1)) (ih (k + 1) r h hvia)

lemma mem_stackSuccess_iff (s : String) :
    s ∈ stackSuccessStatuses ↔ s = "CREATE_COMPLETE" ∨ s = "UPDATE_COMPLETE" := by
  simp [stackSuccessStatuses]

lemma mem_stackFailure_iff (s : String) :
    s ∈ stackFailureStatuses ↔
      s = "CREATE_FAILED" ∨ s = "ROLLBACK_COMPLETE" ∨ s = "ROLLBACK_FAILED" ∨
      s = "UPDATE_ROLLBACK_COMPLETE" ∨ s = "UPDATE_ROLLBACK_FAILED" ∨
      s = "DELETE_COMPLETE" ∨ s = "DELETE_FAILED" := by
  simp [stackFailureStatuses]

lemma classifyStackStatus_of_success (s : String) (h : s ∈ stackSuccessStatuses) :
    classifyStackStatus s = .succeedWith s := by
  unfold classifyStackStatus
  rw [if_pos ((mem_stackSuccess_iff s).mp h)]

lemma classifyStackStatus_of_failure (s : String) (h : s ∈ stackFailureStatuses) :
    classifyStackStatus s = .failWith s ("stack operation failed with status: " ++ s) := by
  have hf := (mem_stackFailure_iff s).mp h
  have hns : ¬(s = "CREATE_COMPLETE" ∨ s = "UPDATE_COMPLETE") := by
    rcases hf with rfl | rfl | rfl | rfl | rfl | rfl | rfl <;> decide
  unfold classifyStackStatus
  rw [if_neg hns, if_pos hf]

lemma classifyStackStatus_pending (s : String) (h1 : s ∉ stackSuccessStatuses)
    (h2 : s ∉ stackFailureStatuses) : classifyStackStatus s = .keepPolling := by
  unfold classifyStackStatus
  rw [if_neg (fun hc => h1 ((mem_stackSuccess_iff s).mpr hc)),
    if_neg (fun hc => h2 ((mem_stackFailure_iff s).mpr hc))]

/-- Claim C1: in waitForStack, a status observation returns success exactly
when the status is CREATE_COMPLETE or UPDATE_COMPLETE; it returns an error
carrying the status string exactly when the status is one of the seven
terminal-failure statuses; and any other status keeps the loop polling,
issuing exactly one further poll after the next interval elapses (the loop
at tick k recurses to tick k+1, whose query fires at time (k+2)*i). -/
theorem claim_C1 :
    (∀ s : String, classifyStackStatus s = .succeedWith s ↔ s ∈ stackSuccessStatuses) ∧
    (∀ s : String,
      classifyStackStatus s = .failWith s ("stack operation failed with status: " ++ s) ↔
        s ∈ stackFailureStatuses) ∧
    (∀ s : String, s ∉ stackSuccessStatuses → s ∉ stackFailureStatuses →
      classifyStackStatus s = .keepPolling) ∧
    (∀ (i d : Nat) (c : Option Nat) (cause : String) (q : Nat → Except String String)
        (fuel k : Nat) (s : String),
      nextEvent c d ((k + 1) * i) = .tick → q k = .ok s →
      (s ∈ stackSuccessStatuses →
        pollLoop q classifyStackStatus i d c cause (fuel + 1) k =
          some ⟨.succeeded s, k + 1⟩) ∧
      (s ∈ stackFailureStatuses →
        pollLoop q classifyStackStatus i d c cause (fuel + 1) k =
          some ⟨.failed s ("stack operation failed with status: " ++ s), k + 1⟩) ∧
      (s ∉ stackSuccessStatuses → s ∉ stackFailureStatuses →
        pollLoop q classifyStackStatus i d c cause (fuel + 1) k =
          pollLoop q classifyStackStatus i d c cause fuel (k + 1))) := by
  refine ⟨?_, ?_, classifyStackStatus_pending, ?_⟩
  · intro s
    constructor
    · intro h
      by_contra hmem
      by_cases hf : s ∈ stackFailureStatuses
      · rw [classifyStackStatus_of_failure s hf] at h
        exact absurd h (by simp)
      · rw [classifyStackStatus_pending s hmem hf] at h
        exact absurd h (by simp)
    · exact classifyStackStatus_of_success s
  · intro s
    constructor
    · intro h
      by_contra hmem
      by_cases hs : s ∈ stackSuccessStatuses
      · rw [classifyStackStatus_of_success s hs] at h
        exact absurd h (by simp)
      · rw [classifyStackStatus_pending s hs hmem] at h
        exact absurd h (by simp)
    · exact classifyStackStatus_of_failure s
  · intro i d c cause q fuel k s hne hqk
    refine ⟨?_, ?_, ?_⟩
    · intro hmem
      have hcl := classifyStackStatus_of_success s hmem
      rw [pollLoop_succ]
      simp only [hne, hqk, hcl]
    · intro hmem
      have hcl := classifyStackStatus_of_failure s hmem
      rw [pollLoop_succ]
      simp only [hne, hqk, hcl]
    · intro h1 h2
      have hcl := classifyStackStatus_pending s h1 h2
      rw [pollLoop_succ]
      simp only [hne, hqk, hcl]

/-- Witness for C1: a CREATE_COMPLETE observation at the first tick makes
the loop return success after exactly one poll. -/
theorem claim_C1_witness :
    pollLoop (fun _ => Except.ok "CREATE_COMPLETE") classifyStackStatus 1 5 none "ctx" 1 0 =
      some ⟨.succeeded "CREATE_COMPLETE", 1⟩ :=
  (claim_C1.2.2.2 1 5 none "ctx" (fun _ => Except.ok "CREATE_COMPLETE") 0 0 "CREATE_COMPLETE"
    (by decide) rfl).1 (by decide)

/-- Counterexample for C3 as stated: the deploy poller's interval is 10
seconds but its deadline, expressed in the interval's unit (seconds), is
1800 units rather than 30; the drift poller's deadline is 600 interval
units rather than 10. -/
theorem claim_C3_counterexample :
    stackPollInterval = 10 * second ∧ stackTimeout = 1800 * second ∧
    stackTimeout ≠ 30 * second ∧ (1800 : Nat) ≠ 30 ∧
    driftPollInterval = 5 * second ∧ driftTimeout = 600 * second ∧
    driftTimeout ≠ 10 * second ∧ (600 : Nat) ≠ 10 := by
  refine ⟨rfl, by decide, by decide, by decide, rfl, by decide, by decide, by decide⟩

/-- Claim C3 (amended): the Operation Poller waits one 10-second interval
between ticks under a 30-minute deadline (1800 interval units, not 30);
the Drift Poller waits one 5-second interval under a 10-minute deadline
(600 interval units, not 10); both wrappers run the polling loop with
exactly these constants. -/
theorem claim_C3 :
    stackPollInterval = 10 * second ∧ stackTimeout = 30 * minute ∧
    minute = 60 * second ∧ stackTimeout = 180 * stackPollInterval ∧
    driftPollInterval = 5 * second ∧ driftTimeout = 10 * minute ∧
    driftTimeout = 120 * driftPollInterval ∧
    (∀ (name : String) (c : Option Nat) (cause : String)
        (da : Nat → Except String (List RemoteStack)),
      waitForStackRun name c cause da =
        pollLoop (fun k => getStackStatus name (da k)) classifyStackStatus
          stackPollInterval stackTimeout c cause stackTimeout 0) ∧
    (∀ (c : Option Nat) (cause : String) (da : Nat → Except String DriftDetectionObs),
      waitForDriftDetectionRun c cause da =
        pollLoop (fun k => describeDriftDetectionStatus (da k)) classifyDriftDetection
          driftPollInterval driftTimeout c cause driftTimeout 0) :=
  ⟨rfl, rfl, rfl, by decide, rfl, rfl, by decide,
    fun _ _ _ _ => rfl, fun _ _ _ => rfl⟩

/-- Claim C6: a failing existence query (any error from the describe call)
yields (false, nil) from stackExists — no error is surfaced — and Deploy
then takes the create branch. -/
theorem claim_C6 : ∀ (env : DeployEnv) (name tb e : String),
    env.existsQuery = .error e → env.templateRes = .ok tb →
    stackExists env.existsQuery = (false, none) ∧
    (deploy name env).1 = some DeployAction.created := by
  intro env name tb e hq ht
  constructor
  · rw [hq]
    rfl
  · unfold deploy
    simp only [ht, hq, stackExists]
    cases hc : createStack env.createRemote with
    | error e2 => simp [hc]
    | ok sid =>
        cases hw : env.waitRes with
        | error e3 => simp [hc, hw]
        | ok st =>
            cases ho : getStackOutputs env.outputsQuery with
            | error e4 => simp [hc, hw, ho]
            | ok outs => simp [hc, hw, ho]

/-- Witness for C6 at a concrete environment whose existence query fails
with an auth error. -/
theorem claim_C6_witness :
    stackExists (DeployEnv.existsQuery
        { templateRes := Except.ok "tmpl", existsQuery := Except.error "auth",
          createRemote := Except.ok "sid", updateRemote := Except.ok "sid",
          waitRes := Except.ok "CREATE_COMPLETE", outputsQuery := Except.ok [] }) =
      (false, none) ∧
    (deploy "Net"
        { templateRes := Except.ok "tmpl", existsQuery := Except.error "auth",
          createRemote := Except.ok "sid", updateRemote := Except.ok "sid",
          waitRes := Except.ok "CREATE_COMPLETE", outputsQuery := Except.ok [] }).1 =
      some DeployAction.created :=
  claim_C6
    { templateRes := Except.ok "tmpl", existsQuery := Except.error "auth",
      createRemote := Except.ok "sid", updateRemote := Except.ok "sid",
      waitRes := Except.ok "CREATE_COMPLETE", outputsQuery := Except.ok [] }
    "Net" "tmpl" "auth" rfl rfl

/-- Counterexample for C7 as stated: when the describe call returns no
stacks, getStackOutputs does not fail — it returns the nil slice with a
nil error. -/
theorem claim_C7_counterexample :
    getStackOutputs (Except.ok ([] : List RemoteStack)) = Except.ok GoSlice.nil ∧
    exceptIsOk (getStackOutputs (Except.ok ([] : List RemoteStack))) = true :=
  ⟨rfl, rfl⟩

/-- Claim C7 (amended): getStackOutputs returns a length-zero outputs value
and no error both when the described stack has zero outputs and when the
describe call returns no stacks; it returns an error exactly when the
describe call itself fails. -/
theorem claim_C7 :
    (∀ e : String, getStackOutputs (.error e) = .error ("failed to describe stack: " ++ e)) ∧
    getStackOutputs (.ok []) = .ok GoSlice.nil ∧
    (GoSlice.nil : GoSlice StackOutput).toList = [] ∧
    (∀ (st : RemoteStack) (rest : List RemoteStack), st.outputs = [] →
      getStackOutputs (.ok (st :: rest)) = .ok GoSlice.nil) ∧
    (∀ (st : RemoteStack) (rest : List RemoteStack),
      exceptIsOk (getStackOutputs (.ok (st :: rest))) = true) := by
  refine ⟨fun e => rfl, rfl, rfl, ?_, fun st rest => rfl⟩
  intro st rest h
  have hdef : getStackOutputs (.ok (st :: rest)) =
      .ok (st.outputs.foldl (fun acc o => acc.append1 ⟨o.outputKey, o.outputValue⟩)
        GoSlice.nil) := rfl
  rw [hdef, h]
  rfl

/-- Witness for C7 at a failing describe call and at a present stack with
zero outputs. -/
theorem claim_C7_witness :
    getStackOutputs (Except.error "boom") =
      Except.error ("failed to describe stack: " ++ "boom") ∧
    getStackOutputs (Except.ok
        [({ stackStatus := "CREATE_COMPLETE", outputs := [], driftStatus := "IN_SYNC" }
          : RemoteStack)]) = Except.ok GoSlice.nil :=
  ⟨claim_C7.1 "boom",
    claim_C7.2.2.2.1 ⟨"CREATE_COMPLETE", [], "IN_SYNC"⟩ [] rfl⟩

/-- Counterexample for C9 as stated: with zero remote outputs the stack's
outputs value is Go's nil slice, which is distinct from a non-nil empty
sequence (it is the null/absent form). -/
theorem claim_C9_counterexample :
    getStackOutputs (Except.ok
        [({ stackStatus := "CREATE_COMPLETE", outputs := [], driftStatus := "IN_SYNC" }
          : RemoteStack)]) = Except.ok GoSlice.nil ∧
    (GoSlice.nil : GoSlice StackOutput) ≠ some [] :=
  ⟨rfl, by decide⟩

/-- Claim C9 (amended): on a successful deploy the DeployResult's Outputs
equal the remote outputs sequence key-for-key and value-for-value in the
same enumeration order; when the remote stack reports zero outputs, Outputs
is Go's nil slice (length zero but null/absent), not a non-nil empty
sequence. -/
theorem claim_C9 : ∀ (name : String) (env : DeployEnv) (tb sid status : String)
    (st0 st : RemoteStack) (rest : List RemoteStack),
    env.templateRes = .ok tb →
    env.existsQuery = .ok [st0] →
    env.updateRemote = .ok sid →
    env.waitRes = .ok status →
    env.outputsQuery = .ok (st :: rest) →
    deploy name env = (some DeployAction.updated,
      .ok ⟨name, sid, status,
        st.outputs.foldl (fun acc o => acc.append1 ⟨o.outputKey, o.outputValue⟩)
          GoSlice.nil⟩) ∧
    (st.outputs.foldl (fun acc o => acc.append1 ⟨o.outputKey, o.outputValue⟩)
        GoSlice.nil).toList =
      st.outputs.map (fun o => (⟨o.outputKey, o.outputValue⟩ : StackOutput)) ∧
    (st.outputs = [] →
      st.outputs.foldl (fun acc o => acc.append1 (⟨o.outputKey, o.outputValue⟩ : StackOutput))
        GoSlice.nil = GoSlice.nil) ∧
    (∀ (o : RemoteOutput) (os : List RemoteOutput), st.outputs = o :: os →
      st.outputs.foldl (fun acc o2 => acc.append1 (⟨o2.outputKey, o2.outputValue⟩ : StackOutput))
        GoSlice.nil =
        some ((o :: os).map (fun o2 => (⟨o2.outputKey, o2.outputValue⟩ : StackOutput)))) := by
  intro name env tb sid status st0 st rest ht hq hu hw ho
  refine ⟨?_, ?_, ?_, ?_⟩
  · unfold deploy
    simp [ht, hq, hu, hw, ho, stackExists, updateStack, getStackOutputs]
  · exact goSliceFoldl_nil_toList (fun o => (⟨o.outputKey, o.outputValue⟩ : StackOutput))
      st.outputs
  · intro h
    rw [h]
    rfl
  · intro o os h
    rw [h]
    exact goSliceFoldl_nil_cons (fun o2 => (⟨o2.outputKey, o2.outputValue⟩ : StackOutput)) o os

/-- Witness for C9 at a concrete environment whose stack reports two
outputs. -/
theorem claim_C9_witness :
    deploy "Net"
        { templateRes := Except.ok "tmpl", existsQuery := Except.ok
            [{ stackStatus := "UPDATE_IN_PROGRESS", outputs := [], driftStatus := "IN_SYNC" }],
          createRemote := Except.ok "x", updateRemote := Except.ok "sid",
          waitRes := Except.ok "UPDATE_COMPLETE",
          outputsQuery := Except.ok
            [{ stackStatus := "UPDATE_COMPLETE",
               outputs := [⟨"K1", "V1"⟩, ⟨"K2", "V2"⟩], driftStatus := "IN_SYNC" }] } =
      (some DeployAction.updated,
        Except.ok ⟨"Net", "sid", "UPDATE_COMPLETE",
          ([⟨"K1", "V1"⟩, ⟨"K2", "V2"⟩] : List RemoteOutput).foldl
            (fun acc o => acc.append1 ⟨o.outputKey, o.outputValue⟩) GoSlice.nil⟩) :=
  (claim_C9 "Net"
    { templateRes := Except.ok "tmpl", existsQuery := Except.ok
        [{ stackStatus := "UPDATE_IN_PROGRESS", outputs := [], driftStatus := "IN_SYNC" }],
      createRemote := Except.ok "x", updateRemote := Except.ok "sid",
      waitRes := Except.ok "UPDATE_COMPLETE",
      outputsQuery := Except.ok
        [{ stackStatus := "UPDATE_COMPLETE",
           outputs := [⟨"K1", "V1"⟩, ⟨"K2", "V2"⟩], driftStatus := "IN_SYNC" }] }
    "tmpl" "sid" "UPDATE_COMPLETE"
    ⟨"UPDATE_IN_PROGRESS", [], "IN_SYNC"⟩
    ⟨"UPDATE_COMPLETE", [⟨"K1", "V1"⟩, ⟨"K2", "V2"⟩], "IN_SYNC"⟩
    [] rfl rfl rfl rfl rfl).1

/-- Claim C8: in waitForDriftDetection, a detection-status observation
returns success exactly when the status is DETECTION_COMPLETE; it returns
an error carrying the remote-supplied reason exactly when the status is
DETECTION_FAILED; any other detection status keeps the loop polling. -/
theorem claim_C8 :
    (∀ o : DriftDetectionObs,
      classifyDriftDetection o = .succeedWith o.detectionStatus ↔
        o.detectionStatus = "DETECTION_COMPLETE") ∧
    (∀ o : DriftDetectionObs,
      classifyDriftDetection o =
          .failWith o.detectionStatus
            ("drift detection failed: " ++ o.detectionStatusReason) ↔
        o.detectionStatus = "DETECTION_FAILED") ∧
    (∀ o : DriftDetectionObs,
      o.detectionStatus ≠ "DETECTION_COMPLETE" → o.detectionStatus ≠ "DETECTION_FAILED" →
      classifyDriftDetection o = .keepPolling) ∧
    (∀ (i d : Nat) (c : Option Nat) (cause : String)
        (q : Nat → Except String DriftDetectionObs) (fuel k : Nat) (o : DriftDetectionObs),
      nextEvent c d ((k + 1) * i) = .tick → q k = .ok o →
      (o.detectionStatus = "DETECTION_COMPLETE" →
        pollLoop q classifyDriftDetection i d c cause (fuel + 1) k =
          some ⟨.succeeded o.detectionStatus, k + 1⟩) ∧
      (o.detectionStatus = "DETECTION_FAILED" →
        pollLoop q classifyDriftDetection i d c cause (fuel + 1) k =
          some ⟨.failed o.detectionStatus
            ("drift detection failed: " ++ o.detectionStatusReason), k + 1⟩) ∧
      (o.detectionStatus ≠ "DETECTION_COMPLETE" → o.detectionStatus ≠ "DETECTION_FAILED" →
        pollLoop q classifyDriftDetection i d c cause (fuel + 1) k =
          pollLoop q classifyDriftDetection i d c cause fuel (k + 1))) := by
  have hsucc : ∀ o : DriftDetectionObs, o.detectionStatus = "DETECTION_COMPLETE" →
      classifyDriftDetection o = .succeedWith o.detectionStatus := by
    intro o h
    unfold classifyDriftDetection
    rw [if_pos h]
  have hfail : ∀ o : DriftDetectionObs, o.detectionStatus = "DETECTION_FAILED" →
      classifyDriftDetection o =
        .failWith o.detectionStatus
          ("drift detection failed: " ++ o.detectionStatusReason) := by
    intro o h
    have hne2 : o.detectionStatus ≠ "DETECTION_COMPLETE" := by
      rw [h]; decide
    unfold classifyDriftDetection
    rw [if_neg hne2, if_pos h]
  have hpend : ∀ o : DriftDetectionObs,
      o.detectionStatus ≠ "DETECTION_COMPLETE" → o.detectionStatus ≠ "DETECTION_FAILED" →
      classifyDriftDetection o = .keepPolling := by
    intro o h1 h2
    unfold classifyDriftDetection
    rw [if_neg h1, if_neg h2]
  refine ⟨?_, ?_, hpend, ?_⟩
  · intro o
    constructor
    · intro h
      by_contra hs
      by_cases hf : o.detectionStatus = "DETECTION_FAILED"
      · rw [hfail o hf] at h
        exact absurd h (by simp)
      · rw [hpend o hs hf] at h
        exact absurd h (by simp)
    · exact hsucc o
  · intro o
    constructor
    · intro h
      by_contra hf
      by_cases hs : o.detectionStatus = "DETECTION_COMPLETE"
      · rw [hsucc o hs] at h
        exact absurd h (by simp)
      · rw [hpend o hs hf] at h
        exact absurd h (by simp)
    · exact hfail o
  · intro i d c cause q fuel k o hne hqk
    refine ⟨?_, ?_, ?_⟩
    · intro hmem
      have hcl := hsucc o hmem
      rw [pollLoop_succ]
      simp only [hne, hqk, hcl]
    · intro hmem
      have hcl := hfail o hmem
      rw [pollLoop_succ]
      simp only [hne, hqk, hcl]
    · intro h1 h2
      have hcl := hpend o h1 h2
      rw [pollLoop_succ]
      simp only [hne, hqk, hcl]

/-- Witness for C8: a DETECTION_FAILED observation at the first tick makes
the loop return the failure carrying the remote reason after one poll. -/
theorem claim_C8_witness :
    pollLoop (fun _ => Except.ok (⟨"DETECTION_FAILED", "some reason"⟩ : DriftDetectionObs))
        classifyDriftDetection 1 5 none "ctx" 1 0 =
      some ⟨.failed "DETECTION_FAILED" ("drift detection failed: " ++ "some reason"), 1⟩ :=
  (claim_C8.2.2.2 1 5 none "ctx"
    (fun _ => Except.ok (⟨"DETECTION_FAILED", "some reason"⟩ : DriftDetectionObs)) 0 0
    ⟨"DETECTION_FAILED", "some reason"⟩ (by decide) rfl).2.1 rfl

lemma GoSlice.toList_append1 {α : Type} (s : GoSlice α) (x : α) :
    (s.append1 x).toList = s.toList ++ [x] := rfl

lemma batchRunAux_all_ok {α : Type} (f : String → Except String α)
    (wrap : String → String → String) :
    ∀ (l called : List String) (acc : GoSlice α),
      (∀ a ∈ l, exceptIsOk (f a) = true) →
      (batchRunAux f wrap called acc l).1 = called ++ l ∧
      (batchRunAux f wrap called acc l).2.1.toList =
        acc.toList ++ l.filterMap (fun a => (f a).toOption) ∧
      (batchRunAux f wrap called acc l).2.2 = none := by
  intro l
  induction l with
  | nil => intro called acc _; simp [batchRunAux]
  | cons s rest ih =>
      intro called acc h
      have hs := h s (by simp)
      cases hf : f s with
      | error e => rw [hf] at hs; simp [exceptIsOk] at hs
      | ok r =>
          simp only [batchRunAux, hf]
          obtain ⟨h1, h2, h3⟩ :=
            ih (called ++ [s]) (acc.append1 r) (fun a ha => h a (by simp [ha]))
          refine ⟨?_, ?_, h3⟩
          · rw [h1]; simp
          · rw [h2]
            simp [GoSlice.toList_append1, hf, Except.toOption]

lemma batchRunAux_first_error {α : Type} (f : String → Except String α)
    (wrap : String → String → String) :
    ∀ (pre called : List String) (acc : GoSlice α) (b : String) (post : List String)
      (e : String),
      (∀ a ∈ pre, exceptIsOk (f a) = true) → f b = .error e →
      (batchRunAux f wrap called acc (pre ++ b :: post)).1 = called ++ pre ++ [b] ∧
      (batchRunAux f wrap called acc (pre ++ b :: post)).2.1.toList =
        acc.toList ++ pre.filterMap (fun a => (f a).toOption) ∧
      (batchRunAux f wrap called acc (pre ++ b :: post)).2.2 = some (wrap b e) := by
  intro pre
  induction pre with
  | nil =>
      intro called acc b post e _ hb
      have hstep : batchRunAux f wrap called acc ([] ++ b :: post) =
          (called ++ [b], acc, some (wrap b e)) := by
        show batchRunAux f wrap called acc (b :: post) = _
        simp only [batchRunAux, hb]
      rw [hstep]
      exact ⟨by simp, by simp, rfl⟩
  | cons s rest ih =>
      intro called acc b post e h hb
      have hs := h s (by simp)
      cases hf : f s with
      | error e2 => rw [hf] at hs; simp [exceptIsOk] at hs
      | ok r =>
          have hstep : batchRunAux f wrap called acc ((s :: rest) ++ b :: post) =
              batchRunAux f wrap (called ++ [s]) (acc.append1 r) (rest ++ b :: post) := by
            show batchRunAux f wrap called acc (s :: (rest ++ b :: post)) = _
            simp only [batchRunAux, hf]
          obtain ⟨h1, h2, h3⟩ := ih (called ++ [s]) (acc.append1 r) b post e
            (fun a ha => h a (by simp [ha])) hb
          rw [hstep]
          refine ⟨?_, ?_, h3⟩
          · rw [h1]; simp
          · rw [h2]
            simp [GoSlice.toList_append1, hf, Except.toOption]

lemma batchRunAux_none_imp_ok {α : Type} (f : String → Except String α)
    (wrap : String → String → String) :
    ∀ (l called : List String) (acc : GoSlice α),
      (batchRunAux f wrap called acc l).2.2 = none →
      ∀ a ∈ l, exceptIsOk (f a) = true := by
  intro l
  induction l with
  | nil => intro called acc _ a ha; simp at ha
  | cons s rest ih =>
      intro called acc h a ha
      cases hf : f s with
      | error e =>
          simp only [batchRunAux, hf] at h
          exact absurd h (by simp)
      | ok r =>
          simp only [batchRunAux, hf] at h
          rcases List.mem_cons.mp ha with rfl | hmem
          · simp [exceptIsOk, hf]
          · exact ih (called ++ [s]) (acc.append1 r) h a hmem

/-- Claim C2: DeployAll and DetectDriftAll run the per-stack workflow
strictly in list order; on the first failure they stop at once, returning
exactly the outcomes accumulated for the earlier identifiers together with
an error naming the failing stack, and no later identifier's workflow is
ever invoked (the call trace is exactly the prefix up to and including the
failing stack); the batch returns no error only if every identifier's
workflow succeeds. -/
theorem claim_C2 :
    (∀ (α : Type) (f : String → Except String α) (wrap : String → String → String)
        (pre : List String) (b : String) (post : List String) (e : String),
      (∀ a ∈ pre, exceptIsOk (f a) = true) → f b = .error e →
      (batchRun f wrap (pre ++ b :: post)).1 = pre ++ [b] ∧
      (batchRun f wrap (pre ++ b :: post)).2.1.toList =
        pre.filterMap (fun a => (f a).toOption) ∧
      (batchRun f wrap (pre ++ b :: post)).2.2 = some (wrap b e)) ∧
    (∀ (α : Type) (f : String → Except String α) (wrap : String → String → String)
        (l : List String),
      (∀ a ∈ l, exceptIsOk (f a) = true) →
      (batchRun f wrap l).1 = l ∧
      (batchRun f wrap l).2.1.toList = l.filterMap (fun a => (f a).toOption) ∧
      (batchRun f wrap l).2.2 = none) ∧
    (∀ (α : Type) (f : String → Except String α) (wrap : String → String → String)
        (l : List String),
      (batchRun f wrap l).2.2 = none → ∀ a ∈ l, exceptIsOk (f a) = true) ∧
    (∀ (f : String → Except String DeployResult) (ns : List String),
      deployAll f ns = batchRun f deployAllWrap ns) ∧
    (∀ (f : String → Except String DriftResult) (ns : List String),
      detectDriftAll f ns = batchRun f detectDriftAllWrap ns) ∧
    (∀ s e : String, deployAllWrap s e = "failed to deploy stack " ++ s ++ ": " ++ e) ∧
    (∀ s e : String,
      detectDriftAllWrap s e = "failed to detect drift for stack " ++ s ++ ": " ++ e) := by
  refine ⟨?_, ?_, ?_, fun _ _ => rfl, fun _ _ => rfl, fun _ _ => rfl, fun _ _ => rfl⟩
  · intro α f wrap pre b post e h hb
    have hres := batchRunAux_first_error f wrap pre [] GoSlice.nil b post e h hb
    simpa [batchRun, GoSlice.nil, GoSlice.toList] using hres
  · intro α f wrap l h
    have hres := batchRunAux_all_ok f wrap l [] GoSlice.nil h
    simpa [batchRun, GoSlice.nil, GoSlice.toList] using hres
  · intro α f wrap l h
    exact batchRunAux_none_imp_ok f wrap l [] GoSlice.nil h

/-- Witness for C2: on the batch [A, B, C] where B fails, exactly A and B
are invoked, only A's outcome is returned, the error names B, and C is
never attempted. -/
theorem claim_C2_witness :
    (batchRun sampleWorkflow deployAllWrap (["A"] ++ "B" :: ["C"])).1 = ["A"] ++ ["B"] ∧
    (batchRun sampleWorkflow deployAllWrap (["A"] ++ "B" :: ["C"])).2.1.toList =
      ["A"].filterMap (fun a => (sampleWorkflow a).toOption) ∧
    (batchRun sampleWorkflow deployAllWrap (["A"] ++ "B" :: ["C"])).2.2 =
      some (deployAllWrap "B" "boom") :=
  claim_C2.1 Nat sampleWorkflow deployAllWrap ["A"] "B" ["C"] "boom" (by decide) rfl

/-- Claim C5: the drift result's list of drifted resources contains an
entry if and only if it converts a remote record whose per-resource drift
status is MODIFIED, DELETED or NOT_CHECKED (the filters the code requests
from the remote call); a resource reported IN_SYNC never appears; and each
entry preserves the remote ordering of its property differences. -/
theorem claim_C5 : ∀ (name : String) (st : RemoteStack) (rest : List RemoteStack)
    (remote : List RemoteResourceDrift) (dr : DriftResult),
    getDriftResults name (.ok (st :: rest)) remote none = .ok dr →
    dr.StackName = name ∧ dr.DriftStatus = st.driftStatus ∧
    dr.DriftedResources.toList =
      (remote.filter
        (fun r => decide (r.stackResourceDriftStatus ∈ driftStatusFilters))).map
        toDriftedResource ∧
    (∀ x : DriftedResource,
      x ∈ dr.DriftedResources.toList ↔
        ∃ r ∈ remote,
          (r.stackResourceDriftStatus = "MODIFIED" ∨
            r.stackResourceDriftStatus = "DELETED" ∨
            r.stackResourceDriftStatus = "NOT_CHECKED") ∧ x = toDriftedResource r) ∧
    (∀ x ∈ dr.DriftedResources.toList, x.DriftStatus ≠ "IN_SYNC") ∧
    (∀ rd : RemoteResourceDrift,
      (toDriftedResource rd).PropertyDiffs.toList =
        rd.propertyDifferences.map toPropertyDiff) := by
  intro name st rest remote dr h
  have hdef : getDriftResults name (.ok (st :: rest)) remote none =
      .ok ⟨name, st.driftStatus,
        (remote.filter
          (fun r => decide (r.stackResourceDriftStatus ∈ driftStatusFilters))).foldl
          (fun acc rd => acc.append1 (toDriftedResource rd)) GoSlice.nil⟩ := rfl
  rw [hdef] at h
  injection h with h
  subst h
  have htl : (((remote.filter
      (fun r => decide (r.stackResourceDriftStatus ∈ driftStatusFilters))).foldl
      (fun acc rd => acc.append1 (toDriftedResource rd)) GoSlice.nil)).toList =
      (remote.filter
        (fun r => decide (r.stackResourceDriftStatus ∈ driftStatusFilters))).map
        toDriftedResource :=
    goSliceFoldl_nil_toList toDriftedResource _
  refine ⟨rfl, rfl, htl, ?_, ?_, ?_⟩
  · intro x
    rw [show (⟨name, st.driftStatus, _⟩ : DriftResult).DriftedResources.toList =
        (remote.filter
          (fun r => decide (r.stackResourceDriftStatus ∈ driftStatusFilters))).map
          toDriftedResource from htl]
    constructor
    · intro hx
      obtain ⟨r, hrf, rfl⟩ := List.mem_map.mp hx
      obtain ⟨hr, hp⟩ := List.mem_filter.mp hrf
      refine ⟨r, hr, ?_, rfl⟩
      have hmem := of_decide_eq_true hp
      simpa [driftStatusFilters] using hmem
    · rintro ⟨r, hr, hdisj, rfl⟩
      refine List.mem_map.mpr ⟨r, List.mem_filter.mpr ⟨hr, ?_⟩, rfl⟩
      exact decide_eq_true (by simpa [driftStatusFilters] using hdisj)
  · intro x hx
    rw [show (⟨name, st.driftStatus, _⟩ : DriftResult).DriftedResources.toList =
        (remote.filter
          (fun r => decide (r.stackResourceDriftStatus ∈ driftStatusFilters))).map
          toDriftedResource from htl] at hx
    obtain ⟨r, hrf, rfl⟩ := List.mem_map.mp hx
    obtain ⟨hr, hp⟩ := List.mem_filter.mp hrf
    have hmem := of_decide_eq_true hp
    intro hEq
    have : (toDriftedResource r).DriftStatus = r.stackResourceDriftStatus := rfl
    rw [this] at hEq
    rw [hEq] at hmem
    exact absurd hmem (by decide)
  · intro rd
    exact goSliceFoldl_nil_toList toPropertyDiff rd.propertyDifferences

/-- Witness for C5: a two-record remote state (one MODIFIED, one IN_SYNC)
aggregates to exactly the converted MODIFIED record. -/
theorem claim_C5_witness :
    ({ StackName := "Net", DriftStatus := "DRIFTED",
        DriftedResources := some [toDriftedResource sampleModifiedDrift] }
      : DriftResult).DriftedResources.toList =
      (([sampleModifiedDrift, sampleInSyncDrift].filter
        (fun r => decide (r.stackResourceDriftStatus ∈ driftStatusFilters))).map
        toDriftedResource) :=
  (claim_C5 "Net" sampleDriftedStack [] [sampleModifiedDrift, sampleInSyncDrift]
    { StackName := "Net", DriftStatus := "DRIFTED",
      DriftedResources := some [toDriftedResource sampleModifiedDrift] }
    rfl).2.2.1

/-- Claim C4: with the poller's three race inputs strictly ordered (no two
event times coincide, which is what "strictly before" presupposes; Go's
select randomises exact ties), the loop returns the timeout error if and
only if the deadline fires strictly before any terminal observation (a
terminal or failing status query) and strictly before any cancellation;
it returns the cancellation outcome carrying the context's cause if and
only if the cancellation signal fires strictly before any terminal
observation and strictly before the deadline; and the cancellation outcome
is distinct from the timeout outcome and from every status-derived
outcome. -/
theorem claim_C4 : ∀ (α : Type) (q : Nat → Except String α) (classify : α → StepDecision)
    (i d : Nat) (c : Option Nat) (cause : String),
    0 < i → 0 < d →
    (∀ j : Nat, (j + 1) * i ≠ d) →
    (∀ cv : Nat, c = some cv → 0 < cv ∧ cv ≠ d ∧ ∀ j : Nat, (j + 1) * i ≠ cv) →
    ((∃ n, pollLoop q classify i d c cause d 0 = some ⟨.timedOut, n⟩) ↔
      ((∀ j, (j + 1) * i < d → stopsPoll classify (q j) = false) ∧
        ∀ cv, c = some cv → d < cv)) ∧
    ((∃ n, pollLoop q classify i d c cause d 0 = some ⟨.cancelled cause, n⟩) ↔
      (∃ cv, c = some cv ∧ cv < d ∧
        ∀ j, (j + 1) * i < cv → stopsPoll classify (q j) = false)) ∧
    (∀ s m el : String,
      WaitOutcome.cancelled cause ≠ .timedOut ∧
      WaitOutcome.cancelled cause ≠ .failed s m ∧
      WaitOutcome.cancelled cause ≠ .pollError el ∧
      WaitOutcome.cancelled cause ≠ .succeeded s) := by
  intro α q classify i d c cause hi hd htie hctie
  have hfuel : d ≤ (0 + d) * i := by
    have h1 : d * 1 ≤ d * i := Nat.mul_le_mul_left d hi
    simpa using h1
  refine ⟨⟨?_, ?_⟩, ⟨?_, ?_⟩, ?_⟩
  · rintro ⟨n, hn⟩
    have hinv := pollLoop_timedOut_inv d 0 ⟨.timedOut, n⟩ hn rfl
    exact ⟨fun j hj => hinv.1 j (Nat.zero_le j) hj, hinv.2⟩
  · rintro ⟨hq, hc⟩
    exact pollLoop_timeout_of hc d 0 (fun j _ => hq j) (by simpa using hd) hfuel
  · rintro ⟨n, hn⟩
    obtain ⟨-, cv, hcv, hcd, hstops⟩ :=
      pollLoop_cancelled_inv d 0 ⟨.cancelled cause, n⟩ hn rfl
    obtain ⟨-, hneq, -⟩ := hctie cv hcv
    exact ⟨cv, hcv, lt_of_le_of_ne hcd hneq, fun j hj => hstops j (Nat.zero_le j) hj⟩
  · rintro ⟨cv, hcv, hlt, hstops⟩
    obtain ⟨hpos, -, -⟩ := hctie cv hcv
    have hfuel2 : cv ≤ (0 + d) * i := le_trans (le_of_lt hlt) hfuel
    exact pollLoop_cancel_of hcv (le_of_lt hlt) d 0 (fun j _ => hstops j)
      (by simpa using hpos) hfuel2
  · intro s m el
    exact ⟨by simp, by simp, by simp, by simp⟩

/-- Witness for C4: a run that times out (interval 2, deadline 5, no
cancellation, a status that never terminates) satisfies the
characterisation; in particular its first observation did not stop the
loop. -/
theorem claim_C4_witness :
    stopsPoll classifyStackStatus (Except.ok "CREATE_IN_PROGRESS") = false :=
  ((claim_C4 String (fun _ => Except.ok "CREATE_IN_PROGRESS") classifyStackStatus 2 5 none
      "ctx" (by decide) (by decide) (by intro j; omega)
      (fun cv h => Option.noConfusion h)).1.mp ⟨2, by decide⟩).1 0 (by decide)

/-- Claim C10: in both pollers no status query is issued before the first
interval has fully elapsed: any outcome produced by a status query takes
at least one poll, so its observation time, polls times the interval, is
at least one interval (10 seconds for deploy, 5 seconds for drift); while
a cancellation or deadline that fires before the first tick preempts the
wait with zero status queries issued. -/
theorem claim_C10 :
    (∀ (α : Type) (q : Nat → Except String α) (classify : α → StepDecision)
        (i d : Nat) (c : Option Nat) (cause : String) (fuel : Nat) (r : PollRun),
      pollLoop q classify i d c cause fuel 0 = some r → r.outcome.viaQuery = true →
      1 ≤ r.polls ∧ i ≤ r.polls * i) ∧
    (∀ (α : Type) (q : Nat → Except String α) (classify : α → StepDecision)
        (i d cv : Nat) (cause : String) (fuel : Nat),
      cv < d → cv < i →
      pollLoop q classify i d (some cv) cause (fuel + 1) 0 = some ⟨.cancelled cause, 0⟩) ∧
    (∀ (α : Type) (q : Nat → Except String α) (classify : α → StepDecision)
        (i d : Nat) (cause : String) (fuel : Nat),
      d < i →
      pollLoop q classify i d none cause (fuel + 1) 0 = some ⟨.timedOut, 0⟩) ∧
    (∀ (name : String) (c : Option Nat) (cause : String)
        (da : Nat → Except String (List RemoteStack)) (r : PollRun),
      waitForStackRun name c cause da = some r → r.outcome.viaQuery = true →
      1 ≤ r.polls ∧ stackPollInterval ≤ r.polls * stackPollInterval) ∧
    (∀ (c : Option Nat) (cause : String) (da : Nat → Except String DriftDetectionObs)
        (r : PollRun),
      waitForDriftDetectionRun c cause da = some r → r.outcome.viaQuery = true →
      1 ≤ r.polls ∧ driftPollInterval ≤ r.polls * driftPollInterval) := by
  have hbound : ∀ (i : Nat) (n : Nat), 1 ≤ n → i ≤ n * i := by
    intro i n h1
    have h2 : 1 * i ≤ n * i := Nat.mul_le_mul_right i h1
    simpa using h2
  refine ⟨?_, ?_, ?_, ?_, ?_⟩
  · intro α q classify i d c cause fuel r hp hv
    have h1 := pollLoop_viaQuery_polls fuel 0 r hp hv
    exact ⟨h1, hbound i r.polls h1⟩
  · intro α q classify i d cv cause fuel hcd hci
    have hne : nextEvent (some cv) d ((0 + 1) * i) = .cancel :=
      nextEvent_cancel_of rfl (le_of_lt hcd) (by simpa using le_of_lt hci)
    rw [pollLoop_succ]
    simp only [hne]
  · intro α q classify i d cause fuel hdi
    have hne : nextEvent none d ((0 + 1) * i) = .timeout :=
      nextEvent_timeout_of (by simpa using le_of_lt hdi) (fun cv h => Option.noConfusion h)
    rw [pollLoop_succ]
    simp only [hne]
  · intro name c cause da r hp hv
    unfold waitForStackRun at hp
    have h1 := pollLoop_viaQuery_polls stackTimeout 0 r hp hv
    exact ⟨h1, hbound stackPollInterval r.polls h1⟩
  · intro c cause da r hp hv
    unfold waitForDriftDetectionRun at hp
    have h1 := pollLoop_viaQuery_polls driftTimeout 0 r hp hv
    exact ⟨h1, hbound driftPollInterval r.polls h1⟩

/-- Witness for C10: a terminal status seen at the first tick still costs
one poll at one full interval, while a cancellation at time 2 (interval 3)
and a deadline at time 2 (interval 3) both preempt with zero polls. -/
theorem claim_C10_witness :
    (1 ≤ (⟨.succeeded "CREATE_COMPLETE", 1⟩ : PollRun).polls ∧
      3 ≤ (⟨.succeeded "CREATE_COMPLETE", 1⟩ : PollRun).polls * 3) ∧
    pollLoop (fun _ => Except.ok "CREATE_IN_PROGRESS") classifyStackStatus 3 10 (some 2)
      "ctx" 10 0 = some ⟨.cancelled "ctx", 0⟩ ∧
    pollLoop (fun _ => Except.ok "CREATE_IN_PROGRESS") classifyStackStatus 3 2 none
      "ctx" 10 0 = some ⟨.timedOut, 0⟩ :=
  ⟨claim_C10.1 String (fun _ => Except.ok "CREATE_COMPLETE") classifyStackStatus 3 10 none
      "ctx" 10 ⟨.succeeded "CREATE_COMPLETE", 1⟩ (by decide) rfl,
    claim_C10.2.1 String (fun _ => Except.ok "CREATE_IN_PROGRESS") classifyStackStatus 3 10 2
      "ctx" 9 (by decide) (by decide),
    claim_C10.2.2.1 String (fun _ => Except.ok "CREATE_IN_PROGRESS") classifyStackStatus 3 2
      "ctx" 9 (by decide)⟩

end CdkDeployer
